import Mathlib

/-!
Verification of the Layer Property Flow (LPF) package module `flopy/modflow/mflpf.py`:
the in-memory record (`ModflowLpf.__init__`), the fixed-layout text encoder
(`write_file`), the mirror decoder (`load`), and the validator (`check`).

The file-level array blocks (`Util2d` / `Util3d` control records) are external
collaborators of this module, so a file is modelled as a list of abstract items:
the header line, the five 1-D per-layer control arrays, the optional
wetting-control line, the parameter-definition data consumed by the parameter
sub-loader, and one item per 2-D array block.  Each 2-D block carries the
uniform-scalar vs full-array status of the slice it stores (`Slice`).
Machine floats are modelled as rationals; integer fields as `Int`.
-/

/-- One layer slice of a 3-D field: either a broadcast scalar
(`CONSTANT`-style record) or a full `nrow × ncol` grid. -/
inductive Slice where
  | const (v : Rat)
  | arr (a : List (List Rat))
deriving DecidableEq, Repr

/-- One abstract item of the LPF package file, in file order.
`header` is item 1 (`IPAKCB, HDRY, NPLPF, options`); `arr1i`/`arr1f` are the
1-D layer-control arrays; `wetline` is item 7 (`WETFCT, IWETIT, IHDWET`);
`parData` stands for the lines consumed by the parameter sub-loader
(`mfpar.load`), carrying the parameter names and their values; `block` is one
2-D array block written by `Util2d.get_file_entry` (the stored name is the
name the writer gave the array; the on-disk control record is unnamed, and the
reader ignores it); `ctrl` is a bare array-control line, which the decoder
consumes with `f.readline()` on the parameter branch. -/
inductive Item where
  | header (ipakcb : Int) (hdry : Rat) (nplpf : Int) (opts : List String)
  | arr1i (vals : List Int)
  | arr1f (vals : List Rat)
  | wetline (wetfct : Rat) (iwetit : Int) (ihdwet : Int)
  | parData (parTypes : List String) (dict : List (String × Rat))
  | block (name : String) (s : Slice)
  | ctrl
deriving DecidableEq, Repr

/-- The read-only queries the package makes of its owning model:
grid dimensions, `DIS` steadiness (`steady.all()`), and the per-layer
confining-bed flag `laycbd`. -/
structure ModelCfg where
  nlay : Nat := 1
  nrow : Nat := 1
  ncol : Nat := 1
  steadyAll : Bool := true
  laycbd : List Int := [0]
deriving DecidableEq, Repr

/-- The rational `0.1`, the default `wetfct` (written without `/` so that kernel
evaluation of concrete instances stays cheap). -/
def ratTenth : Rat := ⟨1, 10, by decide, by decide⟩

/-- The arguments of `ModflowLpf.__init__` (after the `Util2d`/`Util3d`
broadcast, so per-layer data arrives as lists).  Defaults mirror the Python
signature; `wetfct`/`iwetit`/`ihdwet` are optional because `load` passes
`None` for them when no layer has wetting active. -/
structure LpfArgs where
  ipakcb : Int := 53
  hdry : Rat := -(10 ^ 30)
  laytyp : List Int := []
  layavg : List Int := []
  chani : List Rat := []
  layvka : List Int := []
  laywet : List Int := []
  wetfct : Option Rat := some ratTenth
  iwetit : Option Int := some 1
  ihdwet : Option Int := some 0
  hk : List Slice := []
  hani : List Slice := []
  vka : List Slice := []
  ss : List Slice := []
  sy : List Slice := []
  vkcb : List Slice := []
  wetdry : List Slice := []
  storagecoefficient : Bool := false
  constantcv : Bool := false
  thickstrt : Bool := false
  nocvcorrection : Bool := false
  novfc : Bool := false
deriving DecidableEq, Repr

/-- The constructed package record.  `options` is the ordered token list the
constructor builds into `self.options`; `vkaNames` is the per-layer name list
(`'vka'` / `'vani'`) the constructor derives from `layvka`; `ssName` is
`'ss'` or `'storage'` per the STORAGECOEFFICIENT option. -/
structure LpfRecord where
  ipakcb : Int
  hdry : Rat
  nplpf : Int
  laytyp : List Int
  layavg : List Int
  chani : List Rat
  layvka : List Int
  laywet : List Int
  wetfct : Option Rat
  iwetit : Option Int
  ihdwet : Option Int
  options : List String
  vkaNames : List String
  ssName : String
  hk : List Slice
  hani : List Slice
  vka : List Slice
  ss : List Slice
  sy : List Slice
  vkcb : List Slice
  wetdry : List Slice
deriving DecidableEq, Repr

/-- The option token list built by `__init__` (tokens appended in this fixed
order, each guarded by its boolean argument). -/
def optionTokens (sc cc ts ncv nv : Bool) : List String :=
  (if sc then ["STORAGECOEFFICIENT"] else [])
    ++ (if cc then ["CONSTANTCV"] else [])
    ++ (if ts then ["THICKSTRT"] else [])
    ++ (if ncv then ["NOCVCORRECTION"] else [])
    ++ (if nv then ["NOVFC"] else [])

/-- Constructor `ModflowLpf.__init__`: normalizes `ipakcb` to `{0, 53}`, sets `nplpf = 0`
unconditionally, builds the options token list, and derives the per-layer
`vka`/`vani` names from `layvka` and the `ss`/`storage` name from the
STORAGECOEFFICIENT flag.  (The `iwdflg` argument of the Python signature is
ignored by the constructor body and therefore not modelled.) -/
def mkLpf (a : LpfArgs) : LpfRecord :=
  { ipakcb := if a.ipakcb ≠ 0 then 53 else 0
    hdry := a.hdry
    nplpf := 0
    laytyp := a.laytyp
    layavg := a.layavg
    chani := a.chani
    layvka := a.layvka
    laywet := a.laywet
    wetfct := a.wetfct
    iwetit := a.iwetit
    ihdwet := a.ihdwet
    options := optionTokens a.storagecoefficient a.constantcv a.thickstrt
      a.nocvcorrection a.novfc
    vkaNames := a.layvka.map fun v => if v ≠ 0 then "vani" else "vka"
    ssName := if a.storagecoefficient then "storage" else "ss"
    hk := a.hk
    hani := a.hani
    vka := a.vka
    ss := a.ss
    sy := a.sy
    vkcb := a.vkcb
    wetdry := a.wetdry }

/-- Abbreviation for `if c then l else []`, the shape of every conditional write in
`write_file`. -/
def optIf (c : Prop) [Decidable c] (l : List Item) : List Item :=
  if c then l else []

/-- The 2-D blocks `write_file` emits for layer `k`, in source order:
`hk`; `hani` when `chani[k] < 1`; `vka` under its per-layer name; when the
model is transient, `ss` (under `ssName`) and, when `laytyp[k] != 0`, `sy`;
`vkcb` when `laycbd[k] > 0`; `wetdry` when `laywet[k] != 0 and
laytyp[k] != 0`. -/
def writeLayer (cfg : ModelCfg) (r : LpfRecord) (k : Nat) : List Item :=
  [Item.block "hk" (r.hk.getD k (.const 0))]
    ++ optIf (r.chani.getD k 1 < 1) [Item.block "hani" (r.hani.getD k (.const 0))]
    ++ [Item.block (r.vkaNames.getD k "vka") (r.vka.getD k (.const 0))]
    ++ optIf (cfg.steadyAll = false)
        ([Item.block r.ssName (r.ss.getD k (.const 0))]
          ++ optIf (r.laytyp.getD k 0 ≠ 0) [Item.block "sy" (r.sy.getD k (.const 0))])
    ++ optIf (0 < cfg.laycbd.getD k 0) [Item.block "vkcb" (r.vkcb.getD k (.const 0))]
    ++ optIf (r.laywet.getD k 0 ≠ 0 ∧ r.laytyp.getD k 0 ≠ 0)
        [Item.block "wetdry" (r.wetdry.getD k (.const 0))]

/-- Concatenation of the per-layer blocks for layers `0 .. n-1` in order. -/
def catLayers (f : Nat → List Item) : Nat → List Item
  | 0 => []
  | n + 1 => catLayers f n ++ f n

/-- Encoder `ModflowLpf.write_file`: the header line, the five layer-control arrays,
the wetting-control line when `laywet.sum() > 0`, then the per-layer blocks.
(The leading `#` heading comment carries no data and is not an item;
the file handle discipline of `write_file` is modelled by `writeTrace`.) -/
def write_file (cfg : ModelCfg) (r : LpfRecord) : List Item :=
  [Item.header r.ipakcb r.hdry r.nplpf r.options,
   Item.arr1i r.laytyp, Item.arr1i r.layavg, Item.arr1f r.chani,
   Item.arr1i r.layvka, Item.arr1i r.laywet]
    ++ optIf (0 < r.laywet.sum)
        [Item.wetline (r.wetfct.getD 0) (r.iwetit.getD 0) (r.ihdwet.getD 0)]
    ++ catLayers (writeLayer cfg r) cfg.nlay

/-- Is this item the wetting-control line? -/
def isWetline : Item → Bool
  | .wetline .. => true
  | _ => false

/-- Does the encoded file contain the wetting-control line? -/
def hasWetline (items : List Item) : Bool := items.any isWetline

/-- Number of 2-D blocks written under a given array name. -/
def blockCount (name : String) (items : List Item) : Nat :=
  items.countP fun i =>
    match i with
    | .block n _ => n = name
    | _ => false

/-- The `NPLPF` field of the header line of an encoded file. -/
def headerNplpf : List Item → Option Int
  | .header _ _ n _ :: _ => some n
  | _ => none

/-- Instrumentation events recorded while the decoder runs: invocation of the
parameter sub-loader (`mfpar.load`), a direct 2-D array read
(`Util2d.load`, with the name the decoder passes and the layer index), the
control line consumed with `f.readline()` on the parameter branch, and a
`mfpar.parameter_fill` call (with the name the decoder passes and the
layer index). -/
inductive REvent where
  | mfparLoad
  | rawRead (name : String) (k : Nat)
  | ctrl (k : Nat)
  | paramFill (name : String) (k : Nat)
deriving DecidableEq, Repr

/-- Decoder state while reading the per-layer blocks: the unread remainder of
the file, the events so far, and the per-layer value lists being built (the
Python code preallocates `[0]*nlay` and assigns; here each layer appends its
value, or the untouched placeholder `0` when a field is absent). -/
structure LSt where
  rest : List Item
  ev : List REvent
  hk : List Slice
  hani : List Slice
  vka : List Slice
  ss : List Slice
  sy : List Slice
  vkcb : List Slice
  wetdry : List Slice
deriving DecidableEq, Repr

/-- Reader `Util2d.load`: consume the next array block of the file (the on-disk
control record carries no name, so whatever block comes next is read). -/
def rdBlock : List Item → Option (Slice × List Item)
  | .block _ s :: r => some (s, r)
  | _ => none

/-- Reader `f.readline()`: consume the next line of the file. -/
def rdAny : List Item → Option (List Item)
  | _ :: r => some r
  | [] => none

/-- Modelled from the spec: `mfpar.parameter_fill` is an external
collaborator (`flopy/modflow/mfpar.py` is not under src/); per §4.3 it is a
value-filling function keyed by parameter name, here filling the layer from
the loaded parameter values. -/
def parameter_fill (dict : List (String × Rat)) (name : String) : Slice :=
  .const ((dict.lookup name).getD 0)

/-- Read one field of layer `k` by the direct 2-D array reader, appending the
slice with `upd`. -/
def stepRaw (name : String) (k : Nat) (upd : LSt → Slice → LSt) (st : LSt) :
    Option LSt := do
  let (s, rest) ← rdBlock st.rest
  pure { upd st s with rest := rest, ev := st.ev ++ [.rawRead name k] }

/-- Fill one field of layer `k` from a loaded parameter: consume one control
line, then call `parameter_fill`. -/
def stepPar (name : String) (k : Nat) (dict : List (String × Rat))
    (upd : LSt → Slice → LSt) (st : LSt) : Option LSt := do
  let rest ← rdAny st.rest
  let st2 := upd st (parameter_fill dict name)
  pure { st2 with rest := rest, ev := st.ev ++ [.ctrl k, .paramFill name k] }

/-- The per-field runtime choice of `load`: if the field name appears among
the loaded parameter names use the parameter branch, otherwise the raw array
reader. -/
def stepField (name : String) (k : Nat) (pts : List String)
    (dict : List (String × Rat)) (upd : LSt → Slice → LSt) (st : LSt) :
    Option LSt :=
  if name ∈ pts then stepPar name k dict upd st else stepRaw name k upd st

def updHk (st : LSt) (s : Slice) : LSt := { st with hk := st.hk ++ [s] }
def updHani (st : LSt) (s : Slice) : LSt := { st with hani := st.hani ++ [s] }
def updVka (st : LSt) (s : Slice) : LSt := { st with vka := st.vka ++ [s] }
def updSs (st : LSt) (s : Slice) : LSt := { st with ss := st.ss ++ [s] }
def updSy (st : LSt) (s : Slice) : LSt := { st with sy := st.sy ++ [s] }
def updVkcb (st : LSt) (s : Slice) : LSt := { st with vkcb := st.vkcb ++ [s] }
def updWetdry (st : LSt) (s : Slice) : LSt :=
  { st with wetdry := st.wetdry ++ [s] }

/-- The `vka` step of `load`: the name derived from the just-parsed
`layvka[k]` is used only on the raw branch; the parameter branch re-derives
the name from the parameter-type set instead (`'vani'` iff `'vani'` is among
the loaded parameter names), exactly as the source does. -/
def stepVka (k : Nat) (pts : List String) (dict : List (String × Rat))
    (lvk : Int) (st : LSt) : Option LSt :=
  if "vka" ∉ pts ∧ "vani" ∉ pts then
    stepRaw (if lvk ≠ 0 then "vani" else "vka") k updVka st
  else
    stepPar (if "vani" ∈ pts then "vani" else "vka") k dict updVka st

/-- The `hani` step of `load` for layer `k`: read only when `chani[k] < 1`,
otherwise the `0` placeholder stays. -/
def stepHani (pts : List String) (dict : List (String × Rat)) (ch : Rat)
    (k : Nat) (st : LSt) : Option LSt :=
  if ch < 1 then stepField "hani" k pts dict updHani st
  else pure (updHani st (.const 0))

/-- The storage steps of `load` for layer `k`: only when the model is
transient, read `ss` and then, only when `laytyp[k] != 0`, read `sy`. -/
def stepSsSy (pts : List String) (dict : List (String × Rat))
    (transient : Bool) (lt : Int) (k : Nat) (st : LSt) : Option LSt :=
  if transient then do
    let st ← stepField "ss" k pts dict updSs st
    if lt ≠ 0 then stepField "sy" k pts dict updSy st
    else pure (updSy st (.const 0))
  else pure (updSy (updSs st (.const 0)) (.const 0))

/-- The `vkcb` step of `load` for layer `k`: read only when
`laycbd[k] > 0`. -/
def stepVkcb (pts : List String) (dict : List (String × Rat)) (lcb : Int)
    (k : Nat) (st : LSt) : Option LSt :=
  if 0 < lcb then stepField "vkcb" k pts dict updVkcb st
  else pure (updVkcb st (.const 0))

/-- The `wetdry` step of `load` for layer `k`: read — always with the raw
array reader, there is no parameter branch for `wetdry` in the source — when
`laywet[k] != 0 and laytyp[k] != 0`. -/
def stepWet (lt lw : Int) (k : Nat) (st : LSt) : Option LSt :=
  if lw ≠ 0 ∧ lt ≠ 0 then stepRaw "wetdry" k updWetdry st
  else pure (updWetdry st (.const 0))

/-- One iteration of the per-layer loop of `load` (layer `k`), in source
order: `hk`; `hani` when `chani[k] < 1`; `vka`/`vani`; when transient, `ss`
and, when `laytyp[k] != 0`, `sy`; `vkcb` when `laycbd[k] > 0`; `wetdry`
(always by the raw reader) when `laywet[k] != 0 and laytyp[k] != 0`.
Fields whose condition fails keep the `0` placeholder. -/
def loadLayer (pts : List String) (dict : List (String × Rat))
    (transient : Bool) (lcb : Int) (ch : Rat) (lt lvk lw : Int) (k : Nat)
    (st : LSt) : Option LSt := do
  let st ← stepField "hk" k pts dict updHk st
  let st ← stepHani pts dict ch k st
  let st ← stepVka k pts dict lvk st
  let st ← stepSsSy pts dict transient lt k st
  let st ← stepVkcb pts dict lcb k st
  stepWet lt lw k st

/-- The per-layer loop of `load`, `n` layers remaining, `k` the next layer
index; each layer's control values are fetched from the parsed 1-D arrays. -/
def loadLayersAux (pts : List String) (dict : List (String × Rat))
    (transient : Bool) (lcb : List Int) (ch : List Rat)
    (lt lv lw : List Int) : Nat → Nat → LSt → Option LSt
  | 0, _, st => some st
  | n + 1, k, st => do
    let st1 ← loadLayer pts dict transient (lcb.getD k 0) (ch.getD k 1)
      (lt.getD k 0) (lv.getD k 0) (lw.getD k 0) k st
    loadLayersAux pts dict transient lcb ch lt lv lw n (k + 1) st1

/-- The decoder's normalization of the parsed `IPAKCB` header value
(`mflpf.load`, before constructing the record). -/
def loadNormIpakcb (v : Int) : Int := if v ≠ 0 then 53 else v

/-- What `loadCore` (the parsing phase of `load`) produces: the constructor
arguments, the event trace, and the parameter-name set obtained from the
parameter sub-loader (empty when `NPLPF <= 0`). -/
structure LoadOut where
  args : LpfArgs
  ev : List REvent
  parTypes : List String
deriving DecidableEq, Repr

/-- Item 7 of `load`: read `WETFCT, IWETIT, IHDWET` when `laywet.sum() > 0`,
otherwise leave all three `None`. -/
def parsWet (law : List Int) (r5 : List Item) :
    Option ((Option Rat × Option Int × Option Int) × List Item) :=
  if 0 < law.sum then
    match r5 with
    | Item.wetline wf iw ih :: r6 => some ((some wf, some iw, some ih), r6)
    | _ => none
  else some ((none, none, none), r5)

/-- The parameter stage of `load`: only when `NPLPF > 0`, invoke the
parameter sub-loader (modelled from the spec: `mfpar.load` is an external
collaborator returning the parameter names and values), recording the
`mfparLoad` event; otherwise no names, no values, no event. -/
def parsPar (nplpf : Int) (r6 : List Item) :
    Option (List String × List (String × Rat) × List REvent × List Item) :=
  if 0 < nplpf then
    match r6 with
    | Item.parData pts dict :: r7 => some (pts, dict, [REvent.mfparLoad], r7)
    | _ => none
  else some ([], [], [], r6)

/-- The record-construction stage of `load`: the closing `ModflowLpf(...)`
call's argument list.  `nocvcorrection` is parsed by `load` but **omitted**
from this call in the source, so the field keeps its default `False`. -/
def loadArgs (ipakcb0 : Int) (hdry : Rat) (opts : List String)
    (laytyp layavg : List Int) (chani : List Rat) (layvka laywet : List Int)
    (wet : Option Rat × Option Int × Option Int) (st : LSt) : LpfArgs :=
  { ipakcb := loadNormIpakcb ipakcb0
    hdry := hdry
    laytyp := laytyp, layavg := layavg, chani := chani
    layvka := layvka, laywet := laywet
    wetfct := wet.1, iwetit := wet.2.1, ihdwet := wet.2.2
    hk := st.hk, hani := st.hani, vka := st.vka
    ss := st.ss, sy := st.sy, vkcb := st.vkcb
    wetdry := st.wetdry
    storagecoefficient := "STORAGECOEFFICIENT" ∈ opts
    constantcv := "CONSTANTCV" ∈ opts
    thickstrt := "THICKSTRT" ∈ opts
    novfc := "NOVFC" ∈ opts }

/-- The parsing phase of `ModflowLpf.load`: header (with `IPAKCB`
normalization and option-token scan), the five layer-control arrays, the
wetting-control line when `laywet.sum() > 0`, the parameter data when
`NPLPF > 0`, then the per-layer blocks.  Any layout mismatch is a fatal
parse failure (`none`). -/
def loadCore (cfg : ModelCfg) (items : List Item) : Option LoadOut :=
  match items with
  | Item.header ipakcb0 hdry nplpf opts ::
    Item.arr1i laytyp :: Item.arr1i layavg :: Item.arr1f chani ::
    Item.arr1i layvka :: Item.arr1i laywet :: r5 =>
    (parsWet laywet r5).bind fun wr =>
      (parsPar nplpf wr.2).bind fun pr =>
        (loadLayersAux pr.1 pr.2.1 (!cfg.steadyAll) cfg.laycbd chani
          laytyp layvka laywet cfg.nlay 0
          { rest := pr.2.2.2, ev := pr.2.2.1, hk := [], hani := [], vka := [],
            ss := [], sy := [], vkcb := [], wetdry := [] }).bind fun st =>
          some { args := loadArgs ipakcb0 hdry opts laytyp layavg chani
                   layvka laywet wr.1 st
                 ev := st.ev
                 parTypes := pr.1 }
  | _ => none

/-- Decoder `ModflowLpf.load`: parse, then construct the record through the
constructor, as the source's closing `ModflowLpf(...)` call does.  The event
trace and the loaded parameter names are returned alongside for the
statements below. -/
def load (cfg : ModelCfg) (items : List Item) :
    Option (LpfRecord × List REvent × List String) :=
  (loadCore cfg items).map fun o => (mkLpf o.args, o.ev, o.parTypes)

/-- File-handle events of one encoder or decoder run. -/
inductive FEvent where
  | fopen
  | fwrite
  | fread
  | fclose
deriving DecidableEq, Repr

/-- Number of `f.write` calls `write_file` makes: the heading comment plus
one per item. -/
def writeCallCount (cfg : ModelCfg) (r : LpfRecord) : Nat :=
  1 + (write_file cfg r).length

/-- The handle trace of `write_file`: `open(self.fn_path, 'w')`, the write
calls, `f.close()`.  The body between `open` and `close` is a bare sequence
with no `try/finally` or `with`-block, so if formatting raises at write call
`j` (`failAt = some j`, `j` before the end) the function propagates the
exception with the handle still open and `f.close()` is never reached. -/
def writeTrace (cfg : ModelCfg) (r : LpfRecord) (failAt : Option Nat) :
    List FEvent :=
  let n := writeCallCount cfg r
  match failAt with
  | none => [FEvent.fopen] ++ List.replicate n FEvent.fwrite ++ [FEvent.fclose]
  | some j =>
    if j < n then [FEvent.fopen] ++ List.replicate j FEvent.fwrite
    else [FEvent.fopen] ++ List.replicate n FEvent.fwrite ++ [FEvent.fclose]

/-- The handle trace of `load`: when given a filename it opens the file
itself (`f = open(filename, 'r')`); it then reads; the source contains no
`f.close()` on any path, so no `fclose` event ever occurs — not even on
successful return. -/
def loadTrace (openedByLoad : Bool) (nReads : Nat) : List FEvent :=
  (if openedByLoad then [FEvent.fopen] else []) ++ List.replicate nReads FEvent.fread

/-- The model's active-cell mask (`bas6.ibound`), `nlay × nrow × ncol`;
a cell is inactive iff its entry is `0`. -/
abbrev Ibound := List (List (List Int))

/-- Materialize one slice as an `nrow × ncol` grid. -/
def sliceGrid (cfg : ModelCfg) : Slice → List (List Rat)
  | .const v => List.replicate cfg.nrow (List.replicate cfg.ncol v)
  | .arr a => a

/-- Overwrite the cells of `g` whose mask entry is `0` with `v` (the
inactive-cell override of the validator, applied to a check-scoped copy). -/
def overrideInactive (ib : List (List Int)) (g : List (List Rat)) (v : Rat) :
    List (List Rat) :=
  List.zipWith (fun ibRow gRow =>
    List.zipWith (fun c x => if c = 0 then v else x) ibRow gRow) ib g

/-- Materialize a 3-D field with the inactive-cell override applied. -/
def checkData (cfg : ModelCfg) (ib : Ibound) (field : List Slice) (v : Rat) :
    List (List (List Rat)) :=
  (List.range cfg.nlay).map fun k =>
    overrideInactive (ib.getD k []) (sliceGrid cfg (field.getD k (.const 0))) v

/-- Overwrite whole layers of check-scoped data with `1` where `excl` holds
(the excluded-layer override: scalar-anisotropy layers, layers without a
confining bed, non-convertible layers). -/
def overrideLayers (cfg : ModelCfg) (d : List (List (List Rat)))
    (excl : Nat → Bool) : List (List (List Rat)) :=
  (List.range cfg.nlay).map fun k =>
    if excl k then List.replicate cfg.nrow (List.replicate cfg.ncol 1)
    else d.getD k []

/-- Does any cell of the check-scoped data satisfy `p`? -/
def anyCell (d : List (List (List Rat))) (p : Rat → Bool) : Bool :=
  d.any fun g => g.any fun row => row.any p

/-- Offending cell coordinates `(k, i, j)`, for the detailed (level > 0)
part of the report. -/
def cellList (d : List (List (List Rat))) (p : Rat → Bool) :
    List (Nat × Nat × Nat) :=
  d.enum.flatMap fun gz =>
    gz.2.enum.flatMap fun rz =>
      rz.2.enum.filterMap fun cz =>
        if p cz.2 then some (gz.1, rz.1, cz.1) else none

/-- One field's contribution to the validation report: an ERROR summary line
naming the condition plus, at level > 0, the offending coordinates; or an OK
line (suppressed, like the source's `use_array` logic, when no layer
actually uses the field). -/
def fieldReport (d : List (List (List Rat))) (p : Rat → Bool)
    (errLine okLine : String) (used : Bool) (level : Nat) :
    List String × List (Nat × Nat × Nat) :=
  if anyCell d p then ([errLine], if 0 < level then cellList d p else [])
  else if used then ([okLine], []) else ([], [])

/-- Concatenate the per-field report contributions. -/
def catReports (l : List (List String × List (Nat × Nat × Nat))) :
    List String × List (Nat × Nat × Nat) :=
  (l.flatMap Prod.fst, l.flatMap Prod.snd)

/-- Modelled from the spec (§4.4) — the live validator `Package.check` lives
in `flopy/pakbase.py` and the array materialization in
`flopy/utils/util_array.py`, neither of which is under src/ (mflpf.py itself
holds only a dead, string-quoted copy of the method).  Per the spec, each
field is checked on check-scoped data: inactive cells are overridden, whole
layers are overridden to a neutral `1` where the field is unused
(`chani[k] > 0` for hani, `laycbd[k] == 0` for vkcb, `laytyp[k] == 0` for
sy), `hk`/`hani` must be `≥ 0`, `vka` must be `> 0`, `vkcb` `≥ 0`, and when
the model is transient `ss ≥ 0` and `sy ≥ 0`.  The overrides are applied to
copies; the record itself is never written to. -/
def checkReport (cfg : ModelCfg) (ib : Ibound) (r : LpfRecord) (level : Nat) :
    List String × List (Nat × Nat × Nat) :=
  let hkD := checkData cfg ib r.hk 0
  let haniD := overrideLayers cfg (checkData cfg ib r.hani 0)
    (fun k => decide (0 < r.chani.getD k 1))
  let vkaD := checkData cfg ib r.vka 1
  let vkcbD := overrideLayers cfg (checkData cfg ib r.vkcb 1)
    (fun k => decide (cfg.laycbd.getD k 0 = 0))
  catReports
    ([fieldReport hkD (fun x => decide (x < 0))
        "ERROR: Negative horizontal hydraulic conductivity specified."
        "Specified horizontal hydraulic conductivity is OK." true level,
      fieldReport haniD (fun x => decide (x < 0))
        "ERROR: Negative horizontal hydraulic conductivity ratio specified."
        "Specified horizontal hydraulic conductivity ratio is OK."
        ((List.range cfg.nlay).any fun k => decide (r.chani.getD k 1 ≤ 0)) level,
      fieldReport vkaD (fun x => decide (x ≤ 0))
        "ERROR: Negative or zero vertical hydraulic conductivity specified."
        "Specified vertical hydraulic conductivity is OK." true level,
      fieldReport vkcbD (fun x => decide (x < 0))
        "ERROR: Negative quasi-3D confining bed vertical hydraulic conductivity specified."
        "Specified quasi-3D confining bed vertical hydraulic conductivity is OK."
        ((List.range cfg.nlay).any fun k => decide (cfg.laycbd.getD k 0 ≠ 0)) level]
      ++ (if cfg.steadyAll then [] else
          [fieldReport (checkData cfg ib r.ss 1) (fun x => decide (x < 0))
            "ERROR: Negative specific storage specified."
            "Specified specific storage is OK." true level,
          fieldReport (overrideLayers cfg (checkData cfg ib r.sy 1)
              (fun k => decide (r.laytyp.getD k 0 = 0))) (fun x => decide (x < 0))
            "ERROR: Negative specific yield specified."
            "Specified specific yield is OK."
            ((List.range cfg.nlay).any fun k => decide (r.laytyp.getD k 0 ≠ 0)) level]))

/-- Running the validator: it produces its report and control returns with
the record state — the overrides above were applied to check-scoped copies
of the arrays, so the record the caller holds afterwards is the one it
passed in. -/
def checkRun (cfg : ModelCfg) (ib : Ibound) (r : LpfRecord) (level : Nat) :
    (List String × List (Nat × Nat × Nat)) × LpfRecord :=
  (checkReport cfg ib r level, r)

/-- The rational `0.5`, a legal positive horizontal-anisotropy value below `1`. -/
def ratHalf : Rat := ⟨1, 2, by decide, by decide⟩

/-- A 1-layer, 1×1, steady model with no confining beds. -/
def cfgA : ModelCfg := {}

/-- A 1-layer record with the NOCVCORRECTION option set (all other data
plain defaults for a steady model). -/
def rA : LpfRecord := mkLpf
  { hdry := -1, laytyp := [0], layavg := [0], chani := [1], layvka := [0],
    laywet := [0], hk := [.const 1], hani := [.const 1], vka := [.const 1],
    ss := [.const 1], sy := [.const 1], vkcb := [.const 0],
    wetdry := [.const 0], nocvcorrection := true }


/-- The 2-layer model of the conditional-presence scenario: steady
(`transient = false`), confining-bed flags `[0, 1]`. -/
def cfg5 : ModelCfg := { nlay := 2, laycbd := [0, 1] }

/-- The record of the conditional-presence scenario: `wetFlag = [0, 1]`,
`layerType = [0, 1]`. -/
def r5 : LpfRecord := mkLpf
  { hdry := -1, laytyp := [0, 1], layavg := [0, 0], chani := [1, 1],
    layvka := [0, 0], laywet := [0, 1],
    hk := [.const 1, .const 2], hani := [.const 1, .const 1],
    vka := [.const 1, .const 1], ss := [.const 1, .const 1],
    sy := [.const 1, .const 1], vkcb := [.const 0, .const 3],
    wetdry := [.const 0, .const (-1)] }

/-- A 1-layer record whose only non-default value is `chani = [0.5]`:
a positive scalar anisotropy below `1`. -/
def r3 : LpfRecord := mkLpf
  { hdry := -1, laytyp := [0], layavg := [0], chani := [ratHalf],
    layvka := [0], laywet := [0], hk := [.const 1], hani := [.const 4],
    vka := [.const 1], ss := [.const 1], sy := [.const 1],
    vkcb := [.const 0], wetdry := [.const 0] }

/-- A 1-layer record with `laywet = [-1]`: a nonzero wetting flag whose sum
is negative. -/
def r6 : LpfRecord := mkLpf
  { hdry := -1, laytyp := [1], layavg := [0], chani := [1], layvka := [0],
    laywet := [-1], hk := [.const 1], hani := [.const 1], vka := [.const 1],
    ss := [.const 1], sy := [.const 1], vkcb := [.const 0],
    wetdry := [.const 0] }

/-- A package file declaring one parameter of type `wetdry` (`NPLPF = 1`),
for a 1-layer model with `laytyp = [1]`, `laywet = [1]` — so the `wetdry`
block is present, and the file stores it as a raw array block. -/
def file2 : List Item :=
  [Item.header 0 (-1) 1 [],
   Item.arr1i [1], Item.arr1i [0], Item.arr1f [1], Item.arr1i [0],
   Item.arr1i [1],
   Item.wetline ratTenth 1 0,
   Item.parData ["wetdry"] [("wetdry", 5)],
   Item.block "hk" (.const 1),
   Item.block "vka" (.const 1),
   Item.block "wetdry" (.const 3)]

/-- A package file declaring one parameter of type `vka` (`NPLPF = 1`), for
a 1-layer model with `layvka = [1]` — the layer's vertical field is `vani`
by the constructor's naming rule, but the parameter set only holds `vka`. -/
def file4 : List Item :=
  [Item.header 0 (-1) 1 [],
   Item.arr1i [0], Item.arr1i [0], Item.arr1f [1], Item.arr1i [1],
   Item.arr1i [0],
   Item.parData ["vka"] [("vka", 7)],
   Item.block "hk" (.const 1),
   Item.ctrl]

/-- A package file declaring one parameter of type `hk` (`NPLPF = 1`), for a
1-layer model: the `hk` position holds a bare control line, and the `vka`
block is a raw array. -/
def file2w : List Item :=
  [Item.header 0 (-1) 1 [],
   Item.arr1i [0], Item.arr1i [0], Item.arr1f [1], Item.arr1i [0],
   Item.arr1i [0],
   Item.parData ["hk"] [("hk", 2)],
   Item.ctrl,
   Item.block "vka" (.const 1)]







/-- The five 3-D fields whose `load` branch tests its own literal name
against the parameter set (`vka`/`vani` have a joint test and `wetdry` has
none). -/
def fiveNames : List String := ["hk", "hani", "ss", "sy", "vkcb"]

/-- What the per-layer loop of `load` can record, given the parameter-name
set `pts` and the parsed `layvka` array `lv`: the sub-loader event never
(that happens before the loop); a consumed control line only when parameters
were loaded; a raw read of `wetdry` always, of the `layvka[k]`-derived
`vka`/`vani` name only when neither name is a parameter, and of one of the
five other names only when that name is not a parameter; a parameter fill of
the parameter-set-derived `vka`/`vani` name when either is a parameter, or
of one of the five other names when that name is a parameter. -/
def evSpec (pts : List String) (lv : List Int) : REvent → Prop
  | .mfparLoad => False
  | .ctrl _ => pts ≠ []
  | .rawRead n j =>
      n = "wetdry"
      ∨ ("vka" ∉ pts ∧ "vani" ∉ pts ∧ n = (if lv.getD j 0 ≠ 0 then "vani" else "vka"))
      ∨ (n ∈ fiveNames ∧ n ∉ pts)
  | .paramFill n _ =>
      (("vka" ∈ pts ∨ "vani" ∈ pts) ∧ n = (if "vani" ∈ pts then "vani" else "vka"))
      ∨ (n ∈ fiveNames ∧ n ∈ pts)

/-- Predicate stating that `g` only appends events satisfying `P` to the decoder state's trace. -/
def AddsOK (P : REvent → Prop) (g : LSt → Option LSt) : Prop :=
  ∀ st st', g st = some st' → ∀ e ∈ st'.ev, e ∈ st.ev ∨ P e

def loadResA := load cfgA (write_file cfgA rA)
def rAload : LpfRecord := (loadResA.map Prod.fst).getD (mkLpf {})
def evA : List REvent := (loadResA.map fun x => x.2.1).getD []
def ptsA : List String := (loadResA.map fun x => x.2.2).getD []

def loadRes4 := load cfgA file4
def r4 : LpfRecord := (loadRes4.map Prod.fst).getD (mkLpf {})
def ev4 : List REvent := (loadRes4.map fun x => x.2.1).getD []
def pts4 : List String := (loadRes4.map fun x => x.2.2).getD []

def loadRes2w := load cfgA file2w
def r2w : LpfRecord := (loadRes2w.map Prod.fst).getD (mkLpf {})
def ev2w : List REvent := (loadRes2w.map fun x => x.2.1).getD []
def pts2w : List String := (loadRes2w.map fun x => x.2.2).getD []

def isRawB : REvent → Bool
  | .rawRead _ _ => true
  | _ => false

theorem stepRaw_ev {name : String} {k : Nat} {upd : LSt → Slice → LSt}
    {st st' : LSt} (h : stepRaw name k upd st = some st') :
    st'.ev = st.ev ++ [REvent.rawRead name k] := by
  unfold stepRaw at h
  cases hb : rdBlock st.rest with
  | none => rw [hb] at h; cases h
  | some p =>
    obtain ⟨s, rest⟩ := p
    rw [hb] at h
    cases h
    rfl

theorem stepPar_ev {name : String} {k : Nat} {dict : List (String × Rat)}
    {upd : LSt → Slice → LSt} {st st' : LSt}
    (h : stepPar name k dict upd st = some st') :
    st'.ev = st.ev ++ [REvent.ctrl k, REvent.paramFill name k] := by
  unfold stepPar at h
  cases hb : rdAny st.rest with
  | none => rw [hb] at h; cases h
  | some rest =>
    rw [hb] at h
    cases h
    rfl

theorem addsOK_stepRaw {P : REvent → Prop} {name : String} {k : Nat}
    {upd : LSt → Slice → LSt} (hP : P (.rawRead name k)) :
    AddsOK P (stepRaw name k upd) := by
  intro st st' h e he
  rw [stepRaw_ev h] at he
  rcases List.mem_append.mp he with h1 | h1
  · exact Or.inl h1
  · simp only [List.mem_singleton] at h1
    subst h1
    exact Or.inr hP

theorem addsOK_stepPar {P : REvent → Prop} {name : String} {k : Nat}
    {dict : List (String × Rat)} {upd : LSt → Slice → LSt}
    (hP1 : P (.ctrl k)) (hP2 : P (.paramFill name k)) :
    AddsOK P (stepPar name k dict upd) := by
  intro st st' h e he
  rw [stepPar_ev h] at he
  rcases List.mem_append.mp he with h1 | h1
  · exact Or.inl h1
  · rcases List.mem_cons.mp h1 with h2 | h2
    · subst h2; exact Or.inr hP1
    · simp only [List.mem_singleton] at h2
      subst h2
      exact Or.inr hP2

theorem addsOK_stepField {P : REvent → Prop} {name : String} {k : Nat}
    {pts : List String} {dict : List (String × Rat)}
    {upd : LSt → Slice → LSt}
    (hin : name ∈ pts → P (.ctrl k) ∧ P (.paramFill name k))
    (hout : name ∉ pts → P (.rawRead name k)) :
    AddsOK P (stepField name k pts dict upd) := by
  unfold stepField
  by_cases hm : name ∈ pts
  · simp only [if_pos hm]
    exact addsOK_stepPar (hin hm).1 (hin hm).2
  · simp only [if_neg hm]
    exact addsOK_stepRaw (hout hm)

theorem addsOK_pureUpd {P : REvent → Prop} {f : LSt → LSt}
    (hf : ∀ st, (f st).ev = st.ev) : AddsOK P (fun st => pure (f st)) := by
  intro st st' h e he
  cases h
  rw [hf] at he
  exact Or.inl he

theorem addsOK_bind {P : REvent → Prop} {f : LSt → Option LSt}
    {g : LSt → Option LSt} (hf : AddsOK P f) (hg : AddsOK P g) :
    AddsOK P (fun st => (f st).bind g) := by
  intro st st' h e he
  rcases Option.bind_eq_some.mp h with ⟨st1, h1, h2⟩
  rcases hg st1 st' h2 e he with h3 | h3
  · exact hf st st1 h1 e h3
  · exact Or.inr h3

theorem addsOK_ite {P : REvent → Prop} {c : Prop} [Decidable c]
    {f g : LSt → Option LSt} (hf : AddsOK P f) (hg : AddsOK P g) :
    AddsOK P (fun st => if c then f st else g st) := by
  by_cases h : c
  · simp only [if_pos h]; exact hf
  · simp only [if_neg h]; exact hg

theorem addsOK_stepVka (pts : List String) (dict : List (String × Rat))
    (lv : List Int) (k : Nat) :
    AddsOK (evSpec pts lv) (stepVka k pts dict (lv.getD k 0)) := by
  unfold stepVka
  by_cases hm : "vka" ∉ pts ∧ "vani" ∉ pts
  · simp only [if_pos hm]
    apply addsOK_stepRaw
    exact Or.inr (Or.inl ⟨hm.1, hm.2, rfl⟩)
  · simp only [if_neg hm]
    have hor : "vka" ∈ pts ∨ "vani" ∈ pts := by
      by_contra hc
      push_neg at hc
      exact hm ⟨hc.1, hc.2⟩
    apply addsOK_stepPar
    · show pts ≠ []
      rcases hor with h | h
      · exact List.ne_nil_of_mem h
      · exact List.ne_nil_of_mem h
    · exact Or.inl ⟨hor, rfl⟩

theorem addsOK_loadLayer (pts : List String) (dict : List (String × Rat))
    (tr : Bool) (lcb : Int) (ch : Rat) (lt : Int) (lv : List Int) (lw : Int)
    (k : Nat) :
    AddsOK (evSpec pts lv) (loadLayer pts dict tr lcb ch lt (lv.getD k 0) lw k) := by
  have hfive : ∀ n, n ∈ fiveNames →
      ((n ∈ pts → evSpec pts lv (.ctrl k) ∧ evSpec pts lv (.paramFill n k))
        ∧ (n ∉ pts → evSpec pts lv (.rawRead n k))) := by
    intro n hn
    constructor
    · intro hm
      exact ⟨List.ne_nil_of_mem hm, Or.inr ⟨hn, hm⟩⟩
    · intro hm
      exact Or.inr (Or.inr ⟨hn, hm⟩)
  have hHani : AddsOK (evSpec pts lv) (stepHani pts dict ch k) := by
    unfold stepHani
    apply addsOK_ite
    · exact addsOK_stepField (hfive "hani" (by decide)).1 (hfive "hani" (by decide)).2
    · exact addsOK_pureUpd (fun st => rfl)
  have hSsSy : AddsOK (evSpec pts lv) (stepSsSy pts dict tr lt k) := by
    unfold stepSsSy
    apply addsOK_ite
    · apply addsOK_bind
      · exact addsOK_stepField (hfive "ss" (by decide)).1 (hfive "ss" (by decide)).2
      · apply addsOK_ite
        · exact addsOK_stepField (hfive "sy" (by decide)).1 (hfive "sy" (by decide)).2
        · exact addsOK_pureUpd (fun st => rfl)
    · exact addsOK_pureUpd (fun st => rfl)
  have hVkcb : AddsOK (evSpec pts lv) (stepVkcb pts dict lcb k) := by
    unfold stepVkcb
    apply addsOK_ite
    · exact addsOK_stepField (hfive "vkcb" (by decide)).1 (hfive "vkcb" (by decide)).2
    · exact addsOK_pureUpd (fun st => rfl)
  have hWet : AddsOK (evSpec pts lv) (stepWet lt lw k) := by
    unfold stepWet
    apply addsOK_ite
    · exact addsOK_stepRaw (Or.inl rfl)
    · exact addsOK_pureUpd (fun st => rfl)
  unfold loadLayer
  apply addsOK_bind
  · exact addsOK_stepField (hfive "hk" (by decide)).1 (hfive "hk" (by decide)).2
  apply addsOK_bind
  · exact hHani
  apply addsOK_bind
  · exact addsOK_stepVka pts dict lv k
  apply addsOK_bind
  · exact hSsSy
  apply addsOK_bind
  · exact hVkcb
  exact hWet

theorem loadLayersAux_ev (pts : List String) (dict : List (String × Rat))
    (tr : Bool) (lcb : List Int) (ch : List Rat) (lt lv lw : List Int) :
    ∀ (n k : Nat) (st st' : LSt),
      loadLayersAux pts dict tr lcb ch lt lv lw n k st = some st' →
      ∀ e ∈ st'.ev, e ∈ st.ev ∨ evSpec pts lv e := by
  intro n
  induction n with
  | zero =>
    intro k st st' h e he
    cases h
    exact Or.inl he
  | succ m ih =>
    intro k st st' h e he
    unfold loadLayersAux at h
    rcases Option.bind_eq_some.mp h with ⟨st1, h1, h2⟩
    rcases ih (k + 1) st1 st' h2 e he with h3 | h3
    · exact addsOK_loadLayer pts dict tr (lcb.getD k 0) (ch.getD k 1)
        (lt.getD k 0) lv (lw.getD k 0) k st st1 h1 e h3
    · exact Or.inr h3

theorem parsPar_cases {nplpf : Int} {r6 : List Item} {pts : List String}
    {dict : List (String × Rat)} {ev0 : List REvent} {r7 : List Item}
    (h : parsPar nplpf r6 = some (pts, dict, ev0, r7)) :
    (ev0 = [] ∨ ev0 = [REvent.mfparLoad]) ∧ (nplpf = 0 → pts = [] ∧ ev0 = []) := by
  unfold parsPar at h
  split at h
  · rename_i hpos
    split at h
    · simp only [Option.some.injEq, Prod.mk.injEq] at h
      obtain ⟨h1, h2, h3, h4⟩ := h
      refine ⟨Or.inr h3.symm, ?_⟩
      intro hz
      rw [hz] at hpos
      exact absurd hpos (by decide)
    · cases h
  · simp only [Option.some.injEq, Prod.mk.injEq] at h
    obtain ⟨h1, h2, h3, h4⟩ := h
    exact ⟨Or.inl h3.symm, fun _ => ⟨h1.symm, h3.symm⟩⟩

theorem loadCore_ev {cfg : ModelCfg} {items : List Item} {out : LoadOut}
    (h : loadCore cfg items = some out) :
    (∀ e ∈ out.ev, e = REvent.mfparLoad ∨ evSpec out.parTypes out.args.layvka e)
    ∧ (headerNplpf items = some 0 → out.parTypes = [] ∧
        ∀ e ∈ out.ev, evSpec [] out.args.layvka e) := by
  unfold loadCore at h
  split at h
  · rename_i ipakcb0 hdry nplpf opts laytyp layavg chani layvka laywet r5
    rcases Option.bind_eq_some.mp h with ⟨wr, hwet, h⟩
    rcases Option.bind_eq_some.mp h with ⟨pr, hpar, h⟩
    rcases Option.bind_eq_some.mp h with ⟨st, hlay, h⟩
    injection h with h
    subst h
    obtain ⟨pts, dict, ev0, r7⟩ := pr
    have hcase := parsPar_cases hpar
    have hmain := loadLayersAux_ev pts dict (!cfg.steadyAll) cfg.laycbd chani
      laytyp layvka laywet cfg.nlay 0
      { rest := r7, ev := ev0, hk := [], hani := [], vka := [],
        ss := [], sy := [], vkcb := [], wetdry := [] } st hlay
    constructor
    · intro e he
      rcases hmain e he with h1 | h1
      · rcases hcase.1 with h2 | h2
        · simp only [h2] at h1
          cases h1
        · simp only [h2, List.mem_singleton] at h1
          exact Or.inl h1
      · exact Or.inr h1
    · intro hz
      have hnz : nplpf = 0 := by
        simpa [headerNplpf] using hz
      obtain ⟨hpts, hev0⟩ := hcase.2 hnz
      subst hpts
      subst hev0
      refine ⟨rfl, ?_⟩
      intro e he
      rcases hmain e he with h1 | h1
      · cases h1
      · exact h1
  · cases h

theorem optIf_any (c : Prop) [Decidable c] (l : List Item) (p : Item → Bool) :
    (optIf c l).any p = (decide c && l.any p) := by
  unfold optIf
  by_cases h : c <;> simp [h]

theorem writeLayer_any_wetline (cfg : ModelCfg) (r : LpfRecord) (k : Nat) :
    (writeLayer cfg r k).any isWetline = false := by
  simp [writeLayer, List.any_append, optIf_any, isWetline]

theorem catLayers_any_wetline (cfg : ModelCfg) (r : LpfRecord) :
    ∀ n, (catLayers (writeLayer cfg r) n).any isWetline = false := by
  intro n
  induction n with
  | zero => rfl
  | succ m ih =>
    simp [catLayers, List.any_append, ih, writeLayer_any_wetline]

theorem hasWetline_write (cfg : ModelCfg) (r : LpfRecord) :
    hasWetline (write_file cfg r) = true ↔ 0 < r.laywet.sum := by
  simp [hasWetline, write_file, List.any_append, optIf_any, isWetline,
    catLayers_any_wetline]

theorem getD_vkaNames (l : List Int) (k : Nat) :
    (l.map fun v => if v ≠ 0 then "vani" else "vka").getD k "vka"
      = (if l.getD k 0 ≠ 0 then "vani" else "vka") := by
  induction l generalizing k with
  | nil => simp [List.getD]
  | cons a t ih =>
    cases k with
    | zero => simp [List.getD]
    | succ m => simpa [List.getD] using ih m


/-- C1: the round-trip claim fails on the code.  `rA` is a record whose only
option is NOCVCORRECTION; encoding it with `write_file` and decoding with
`load` (same model configuration) succeeds but returns a record with an
empty options set — `load` parses the NOCVCORRECTION token and then omits it
from the constructor call — so not every field is reproduced. -/
theorem C1_roundtrip_drops_nocvcorrection :
    rA.options = ["NOCVCORRECTION"] ∧
    (load cfgA (write_file cfgA rA)).map (fun x => x.1.options) = some [] ∧
    (load cfgA (write_file cfgA rA)).map (fun x => x.1.options)
      ≠ some rA.options := by
  refine ⟨rfl, rfl, ?_⟩
  decide

/-- C5: for the 2-layer steady model with confining-bed flags `[0,1]`,
`wetFlag = [0,1]`, `layerType = [0,1]`, the encoder emits the
wetting-control line (`sum(wetFlag) = 1`), emits no `ss`/`storage`/`sy`
block at all, and emits the `vkcb` and `wetdry` blocks exactly once each,
both in layer 1's blocks and not in layer 0's. -/
theorem C5_conditional_presence :
    r5.laywet.sum = 1 ∧
    hasWetline (write_file cfg5 r5) = true ∧
    blockCount "ss" (write_file cfg5 r5) = 0 ∧
    blockCount "storage" (write_file cfg5 r5) = 0 ∧
    blockCount "sy" (write_file cfg5 r5) = 0 ∧
    blockCount "vkcb" (write_file cfg5 r5) = 1 ∧
    blockCount "vkcb" (writeLayer cfg5 r5 0) = 0 ∧
    blockCount "vkcb" (writeLayer cfg5 r5 1) = 1 ∧
    blockCount "wetdry" (write_file cfg5 r5) = 1 ∧
    blockCount "wetdry" (writeLayer cfg5 r5 0) = 0 ∧
    blockCount "wetdry" (writeLayer cfg5 r5 1) = 1 :=
  ⟨rfl, rfl, rfl, rfl, rfl, rfl, rfl, rfl, rfl, rfl, rfl⟩

/-- C6 counterexample: for `wetFlag = [-1]` the encoded file omits the
wetting-control line although the sum of the wetting flags is `-1`, not
zero — the encoder tests `sum > 0`, so a negative sum also suppresses the
line, refuting "whenever that line is absent the sum is zero". -/
theorem C6_counterexample :
    hasWetline (write_file cfgA r6) = false ∧ r6.laywet.sum ≠ 0 := by
  exact ⟨rfl, by decide⟩

/-- C6 amended: the wetting-control line is present iff `sum(wetFlag) > 0`;
in particular it is emitted whenever the sum is positive, and when every
per-layer flag is nonnegative its absence does imply the sum is zero. -/
theorem C6_wetline_iff (cfg : ModelCfg) (r : LpfRecord) :
    (hasWetline (write_file cfg r) = true ↔ 0 < r.laywet.sum) ∧
    ((∀ x ∈ r.laywet, 0 ≤ x) → hasWetline (write_file cfg r) = false →
      r.laywet.sum = 0) := by
  refine ⟨hasWetline_write cfg r, ?_⟩
  intro hnn habs
  have hnpos : ¬ (0 < r.laywet.sum) := by
    intro hpos
    rw [(hasWetline_write cfg r).mpr hpos] at habs
    cases habs
  have h0 : 0 ≤ r.laywet.sum := List.sum_nonneg hnn
  omega

theorem C6_wetline_iff_witness :
    (∀ x ∈ rA.laywet, 0 ≤ x) ∧ hasWetline (write_file cfgA rA) = false ∧
    rA.laywet.sum = 0 :=
  ⟨by decide, rfl, (C6_wetline_iff cfgA rA).2 (by decide) rfl⟩

/-- C8: the constructor maps `ipakcb = 0` to `0` and any nonzero value to
`53`; the decoder applies the same normalization (`loadNormIpakcb`) to the
parsed header value, and feeding the normalized value through the
constructor leaves it at the same `{0, 53}` image. -/
theorem C8_ipakcb_norm (a : LpfArgs) (v : Int) :
    (mkLpf a).ipakcb = (if a.ipakcb = 0 then 0 else 53) ∧
    loadNormIpakcb v = (if v = 0 then 0 else 53) ∧
    (mkLpf { a with ipakcb := loadNormIpakcb v }).ipakcb
      = (if v = 0 then 0 else 53) := by
  refine ⟨?_, ?_, ?_⟩
  · by_cases h : a.ipakcb = 0 <;> simp [mkLpf, h]
  · by_cases h : v = 0 <;> simp [loadNormIpakcb, h]
  · by_cases h : v = 0 <;> simp [mkLpf, loadNormIpakcb, h]

/-- C9 (spec-modelled: the live `check` body is `Package.check` in
`flopy/pakbase.py`, not under src/): running the validator returns the
record unchanged — every stored field array (`hk`, `hani`, `vka`, `vkcb`,
`ss`, `sy`, `wetdry`) is the one passed in, the overrides being applied only
to check-scoped copies — and therefore validating the post-state again at
the same level yields the identical report. -/
theorem C9_check_frame (cfg : ModelCfg) (ib : Ibound) (r : LpfRecord)
    (level : Nat) :
    (checkRun cfg ib r level).2 = r ∧
    (checkRun cfg ib r level).2.hk = r.hk ∧
    (checkRun cfg ib r level).2.hani = r.hani ∧
    (checkRun cfg ib r level).2.vka = r.vka ∧
    (checkRun cfg ib r level).2.vkcb = r.vkcb ∧
    (checkRun cfg ib r level).2.ss = r.ss ∧
    (checkRun cfg ib r level).2.sy = r.sy ∧
    (checkRun cfg ib r level).2.wetdry = r.wetdry ∧
    checkReport cfg ib (checkRun cfg ib r level).2 level
      = checkReport cfg ib r level :=
  ⟨rfl, rfl, rfl, rfl, rfl, rfl, rfl, rfl, rfl⟩

/-- C10: the constructor sets `nplpf = 0` unconditionally, so every
constructed record — in particular every record returned by `load`, even
from a file whose header declares `NPLPF > 0` — re-encodes with a header
whose third field is `0`. -/
theorem C10_nplpf_always_zero (a : LpfArgs) (cfg : ModelCfg)
    (items : List Item) (r : LpfRecord) (ev : List REvent)
    (pts : List String) (h : load cfg items = some (r, ev, pts)) :
    (mkLpf a).nplpf = 0 ∧ r.nplpf = 0 ∧
    headerNplpf (write_file cfg r) = some 0 := by
  obtain ⟨o, ho, hmap⟩ := Option.map_eq_some'.mp h
  injection hmap with hr hrest
  subst hr
  exact ⟨rfl, rfl, rfl⟩

theorem C10_nplpf_always_zero_witness :
    load cfgA (write_file cfgA rA) = some (rAload, evA, ptsA) ∧
    (mkLpf {}).nplpf = 0 ∧ rAload.nplpf = 0 ∧
    headerNplpf (write_file cfgA rAload) = some 0 := by
  have h := C10_nplpf_always_zero {} cfgA (write_file cfgA rA) rAload evA
    ptsA rfl
  exact ⟨rfl, h.1, h.2.1, h.2.2⟩

/-- C3: the claim is right about MODFLOW's CHANI contract (also stated in
the package's own docstring), but the code gates the `hani` block on
`chani[k] < 1`: for `chani = [0.5]` — a positive scalar anisotropy — the
encoder writes a per-cell `hani` block and the decoder reads one
(`rawRead "hani"` in its trace), although `chani[0] > 0` demands that no
such block appear in either direction. -/
theorem C3_hani_written_for_positive_chani :
    r3.chani = [ratHalf] ∧ (0 : Rat) < ratHalf ∧
    blockCount "hani" (write_file cfgA r3) = 1 ∧
    (load cfgA (write_file cfgA r3)).map (fun x => x.2.1) =
      some [REvent.rawRead "hk" 0, REvent.rawRead "hani" 0,
        REvent.rawRead "vka" 0] :=
  ⟨rfl, by decide, rfl, rfl⟩

/-- C4 counterexample: `file4` declares a parameter of type `vka` for a
model whose layer has `layvka = [1]`.  The constructor's rule names the
layer's vertical field `vani` (as the loaded record's `vkaNames` confirms),
but on the parameter branch the decoder passes `vka` — derived from the
parameter set, not from the just-parsed `layvka` — to the fill call, so the
branch does not replicate the constructor's naming logic. -/
theorem C4_counterexample :
    (load cfgA file4).map (fun x => x.2.1) =
      some [REvent.mfparLoad, REvent.rawRead "hk" 0, REvent.ctrl 0,
        REvent.paramFill "vka" 0] ∧
    (load cfgA file4).map (fun x => x.1.layvka) = some [1] ∧
    (load cfgA file4).map (fun x => x.1.vkaNames) = some ["vani"] :=
  ⟨rfl, rfl, rfl⟩

/-- C4 amended: on the raw-array branch the decoder's `vka`/`vani` tag does
replicate the constructor's `layvka` logic (it equals the record's
per-layer name); on the parameter branch the tag is instead `vani` iff
`vani` appears among the loaded parameter names, regardless of
`layvka[k]`. -/
theorem C4_vka_naming (cfg : ModelCfg) (items : List Item) (r : LpfRecord)
    (ev : List REvent) (pts : List String)
    (h : load cfg items = some (r, ev, pts)) :
    (∀ n k, REvent.rawRead n k ∈ ev → (n = "vka" ∨ n = "vani") →
      n = (if r.layvka.getD k 0 ≠ 0 then "vani" else "vka")
        ∧ n = r.vkaNames.getD k "vka") ∧
    (∀ n k, REvent.paramFill n k ∈ ev → (n = "vka" ∨ n = "vani") →
      n = (if "vani" ∈ pts then "vani" else "vka")) := by
  obtain ⟨o, ho, hmap⟩ := Option.map_eq_some'.mp h
  injection hmap with hr hrest
  injection hrest with hev hpts
  subst hr
  subst hev
  subst hpts
  obtain ⟨hmain, -⟩ := loadCore_ev ho
  constructor
  · intro n k hmem hvv
    rcases hmain _ hmem with h1 | h1
    · exact (REvent.noConfusion h1)
    · rcases h1 with h1 | ⟨hv1, hv2, heq⟩ | ⟨h5, -⟩
      · rcases hvv with hv | hv <;> rw [hv] at h1 <;>
          exact absurd h1 (by decide)
      · have hlv : (mkLpf o.args).layvka = o.args.layvka := rfl
        refine ⟨by rw [hlv]; exact heq, ?_⟩
        have hnames : (mkLpf o.args).vkaNames.getD k "vka"
            = (if o.args.layvka.getD k 0 ≠ 0 then "vani" else "vka") := by
          have : (mkLpf o.args).vkaNames
              = o.args.layvka.map fun v => if v ≠ 0 then "vani" else "vka" := rfl
          rw [this, getD_vkaNames]
        rw [hnames]
        exact heq
      · rcases hvv with hv | hv <;> rw [hv] at h5 <;>
          exact absurd h5 (by decide)
  · intro n k hmem hvv
    rcases hmain _ hmem with h1 | h1
    · exact (REvent.noConfusion h1)
    · rcases h1 with ⟨-, heq⟩ | ⟨h5, -⟩
      · exact heq
      · rcases hvv with hv | hv <;> rw [hv] at h5 <;>
          exact absurd h5 (by decide)

theorem C4_vka_naming_witness :
    REvent.paramFill "vka" 0 ∈ ev4 ∧ ("vka" = "vka" ∨ "vka" = "vani") ∧
    "vka" = (if "vani" ∈ pts4 then "vani" else "vka") :=
  ⟨by decide, Or.inl rfl,
    (C4_vka_naming cfgA file4 r4 ev4 pts4 rfl).2 "vka" 0 (by decide)
      (Or.inl rfl)⟩

/-- C2 counterexample: `file2` declares a parameter of type `wetdry`
(`NPLPF = 1`) and its model's only layer has the `wetdry` field present
(`laywet = [1]`, `laytyp = [1]`).  The claim demands the raw-array reader be
skipped for `wetdry`; the decoder's trace shows it ran (`rawRead "wetdry" 0`)
— the source's `wetdry` branch has no parameter path at all. -/
theorem C2_counterexample :
    (load cfgA file2).map (fun x => x.2.1) =
      some [REvent.mfparLoad, REvent.rawRead "hk" 0, REvent.rawRead "vka" 0,
        REvent.rawRead "wetdry" 0] ∧
    (load cfgA file2).map (fun x => x.2.2) = some ["wetdry"] :=
  ⟨rfl, rfl⟩

/-- C2 amended: when the parsed `NPLPF` is `0` the parameter sub-loader is
never invoked and every recorded read is a raw-array read; for the fields
`hk`, `hani`, `ss`, `sy`, `vkcb`, a name in the loaded parameter set is
never raw-read on any layer (likewise the vertical field when either `vka`
or `vani` is a parameter); but `wetdry` is the exception: it is never
parameter-filled, whatever the parameter set. -/
theorem C2_param_paths (cfg : ModelCfg) (items : List Item) (r : LpfRecord)
    (ev : List REvent) (pts : List String)
    (h : load cfg items = some (r, ev, pts)) :
    (headerNplpf items = some 0 → ev.all isRawB = true) ∧
    (∀ n k, n ∈ fiveNames → n ∈ pts → REvent.rawRead n k ∉ ev) ∧
    (∀ k, ("vka" ∈ pts ∨ "vani" ∈ pts) →
      REvent.rawRead "vka" k ∉ ev ∧ REvent.rawRead "vani" k ∉ ev) ∧
    (∀ n k, REvent.paramFill n k ∈ ev → n ≠ "wetdry") := by
  obtain ⟨o, ho, hmap⟩ := Option.map_eq_some'.mp h
  injection hmap with hr hrest
  injection hrest with hev hpts
  subst hr
  subst hev
  subst hpts
  obtain ⟨hmain, hzero⟩ := loadCore_ev ho
  refine ⟨?_, ?_, ?_, ?_⟩
  · intro hz
    obtain ⟨-, hall⟩ := hzero hz
    rw [List.all_eq_true]
    intro e he
    have hsp := hall e he
    cases e with
    | mfparLoad => exact hsp.elim
    | ctrl k => exact absurd rfl hsp
    | rawRead n k => rfl
    | paramFill n k =>
      exfalso
      rcases hsp with ⟨hor, -⟩ | ⟨-, hmem⟩
      · rcases hor with hh | hh <;> cases hh
      · cases hmem
  · intro n k hn5 hnp hmem
    rcases hmain _ hmem with h1 | h1
    · exact (REvent.noConfusion h1)
    · rcases h1 with h1 | ⟨-, -, heq⟩ | ⟨-, hnot⟩
      · rw [h1] at hn5
        exact absurd hn5 (by decide)
      · by_cases hc : o.args.layvka.getD k 0 ≠ 0
        · rw [if_pos hc] at heq
          rw [heq] at hn5
          exact absurd hn5 (by decide)
        · rw [if_neg hc] at heq
          rw [heq] at hn5
          exact absurd hn5 (by decide)
      · exact hnot hnp
  · intro k hv
    constructor
    · intro hmem
      rcases hmain _ hmem with h1 | h1
      · exact (REvent.noConfusion h1)
      · rcases h1 with h1 | ⟨hv1, hv2, -⟩ | ⟨h5, -⟩
        · exact absurd h1 (by decide)
        · rcases hv with hh | hh
          · exact hv1 hh
          · exact hv2 hh
        · exact absurd h5 (by decide)
    · intro hmem
      rcases hmain _ hmem with h1 | h1
      · exact (REvent.noConfusion h1)
      · rcases h1 with h1 | ⟨hv1, hv2, -⟩ | ⟨h5, -⟩
        · exact absurd h1 (by decide)
        · rcases hv with hh | hh
          · exact hv1 hh
          · exact hv2 hh
        · exact absurd h5 (by decide)
  · intro n k hmem hwet
    rcases hmain _ hmem with h1 | h1
    · exact (REvent.noConfusion h1)
    · rcases h1 with ⟨-, heq⟩ | ⟨h5, -⟩
      · by_cases hc : "vani" ∈ o.parTypes
        · rw [if_pos hc] at heq
          rw [heq] at hwet
          exact absurd hwet (by decide)
        · rw [if_neg hc] at heq
          rw [heq] at hwet
          exact absurd hwet (by decide)
      · rw [hwet] at h5
        exact absurd h5 (by decide)

theorem C2_param_paths_witness :
    "hk" ∈ fiveNames ∧ "hk" ∈ pts2w ∧ REvent.rawRead "hk" 0 ∉ ev2w :=
  ⟨by decide, by decide,
    (C2_param_paths cfgA file2w r2w ev2w pts2w rfl).2.1 "hk" 0 (by decide)
      (by decide)⟩

/-- C7: the claim fails on the code.  A `load` that opened its own file
(trace below, a successful 3-read run) records one `fopen` and no `fclose` —
the source's `load` contains no `close()` call on any path — and a
`write_file` whose formatting raises at its third write call also returns
with the handle still open (no `try/finally` protects the open-write-close
sequence). -/
theorem C7_counterexample :
    (loadTrace true 3).count FEvent.fopen = 1 ∧
    (loadTrace true 3).count FEvent.fclose = 0 ∧
    (writeTrace cfgA rA (some 2)).count FEvent.fopen = 1 ∧
    (writeTrace cfgA rA (some 2)).count FEvent.fclose = 0 := by
  refine ⟨rfl, rfl, ?_, ?_⟩ <;> decide

/-- C7 amended: `write_file` does close the handle it opened on its normal
(non-raising) path, but on a path where a write call raises the handle stays
open; `load` never closes a handle it opened, even on successful return. -/
theorem C7_handle_paths (cfg : ModelCfg) (r : LpfRecord) (j nReads : Nat)
    (b : Bool) (hj : j < writeCallCount cfg r) :
    (writeTrace cfg r none).count FEvent.fclose
      = (writeTrace cfg r none).count FEvent.fopen ∧
    (writeTrace cfg r (some j)).count FEvent.fclose = 0 ∧
    (loadTrace b nReads).count FEvent.fclose = 0 := by
  refine ⟨?_, ?_, ?_⟩
  · simp [writeTrace, List.count_append, List.count_replicate]
  · simp [writeTrace, hj, List.count_append, List.count_replicate]
  · cases b <;> simp [loadTrace, List.count_replicate]

theorem C7_handle_paths_witness :
    2 < writeCallCount cfgA rA ∧
    (writeTrace cfgA rA none).count FEvent.fclose
      = (writeTrace cfgA rA none).count FEvent.fopen ∧
    (writeTrace cfgA rA (some 2)).count FEvent.fclose = 0 ∧
    (loadTrace true 3).count FEvent.fclose = 0 := by
  have h := C7_handle_paths cfgA rA 2 3 true (by decide)
  exact ⟨by decide, h.1, h.2.1, h.2.2⟩
